import Mathlib

/-
Verification of the rtc core of PocketPalCo/template.

The session registry lives in internal/core/rtc (rtc_service.go): an
RTCService holds a map from room IDs to Rooms, each Room a map from user
IDs to Users, each User holding a websocket connection handle that may
be nil (the REST join path passes nil). Go maps are embedded as
association lists; pointer mutation becomes explicit state passing, and
the network side effect of Conn.WriteMessage is made observable as a
trace of WriteCall records returned by SignalMessage.
-/

namespace RTC

/-- Frame-type constant of the websocket package: text frames. -/
def TextMessage : Nat := 1

/-- Frame-type constant of the websocket package: binary frames. -/
def BinaryMessage : Nat := 2

/-- A websocket connection handle. The registry only ever writes to it;
we model its identity and whether a write on it fails. -/
structure Conn where
  id : Nat
  failSend : Bool
deriving DecidableEq

/-- User represents a user in a room (rtc_service.go). The Go field
Conn has pointer type and may be nil, hence Option. -/
structure User where
  ID : String
  Conn : Option Conn
deriving DecidableEq

/-- Room represents a communication room (rtc_service.go): an ID and a
map from user ID to User, embedded as an association list. -/
structure Room where
  ID : String
  Users : List (String × User)
deriving DecidableEq

/-- RTCService manages rooms and users (rtc_service.go): a map from
room ID to Room. -/
structure RTCService where
  Rooms : List (String × Room)
deriving DecidableEq

/-- Lookup in an association list: the Go map read m[k]. -/
def lookupA {α : Type} : List (String × α) → String → Option α
  | [], _ => none
  | (k, v) :: rest, key => if k = key then some v else lookupA rest key

/-- Update or insert in an association list: the Go map write m[k] = v. -/
def setA {α : Type} : List (String × α) → String → α → List (String × α)
  | [], key, v => [(key, v)]
  | (k, w) :: rest, key, v =>
      if k = key then (key, v) :: rest else (k, w) :: setA rest key v

/-- Removal from an association list: the Go delete(m, k). -/
def eraseA {α : Type} : List (String × α) → String → List (String × α)
  | [], _ => []
  | (k, w) :: rest, key => if k = key then rest else (k, w) :: eraseA rest key

/-- The keys of the association list are pairwise distinct, as they are
in a Go map. -/
def NodupKeys {α : Type} (l : List (String × α)) : Prop :=
  (l.map Prod.fst).Nodup

/-- The per-user error recorded inside SignalMessage when a write
fails: failed to send message to user userID in room roomID. -/
structure SendError where
  userID : String
  roomID : String
deriving DecidableEq

/-- The error values produced by the rtc package, one constructor per
fmt.Errorf site in rtc_service.go. -/
inductive RTCError where
  | roomNotFound (roomID : String)
  | roomAlreadyExists (roomID : String)
  | userAlreadyInRoom (userID roomID : String)
  | userNotInRoom (userID roomID : String)
  | broadcastErrors (errs : List SendError)
deriving DecidableEq

/-- NewRTCService creates a new RTCService with an empty room table. -/
def NewRTCService : RTCService := ⟨[]⟩

/-- CreateRoom creates a new room with the given ID; fails with the
already-exists error when the ID is present. The returned service is
the updated room table (Go mutates s.Rooms in place). -/
def CreateRoom (s : RTCService) (roomID : String) :
    Except RTCError Room × RTCService :=
  match lookupA s.Rooms roomID with
  | some _ => (.error (.roomAlreadyExists roomID), s)
  | none =>
      let room : Room := ⟨roomID, []⟩
      (.ok room, ⟨setA s.Rooms roomID room⟩)

/-- JoinRoom adds a user to a room: room must exist, user must not
already be present; the stored User carries the given connection
handle. -/
def JoinRoom (s : RTCService) (roomID userID : String) (conn : Option Conn) :
    Except RTCError Room × RTCService :=
  match lookupA s.Rooms roomID with
  | none => (.error (.roomNotFound roomID), s)
  | some room =>
      match lookupA room.Users userID with
      | some _ => (.error (.userAlreadyInRoom userID roomID), s)
      | none =>
          let user : User := ⟨userID, conn⟩
          let room' : Room := ⟨room.ID, setA room.Users userID user⟩
          (.ok room', ⟨setA s.Rooms roomID room'⟩)

/-- LeaveRoom removes a user from a room: room must exist, user must be
present. -/
def LeaveRoom (s : RTCService) (roomID userID : String) :
    Except RTCError Unit × RTCService :=
  match lookupA s.Rooms roomID with
  | none => (.error (.roomNotFound roomID), s)
  | some room =>
      match lookupA room.Users userID with
      | none => (.error (.userNotInRoom userID roomID), s)
      | some _ =>
          let room' : Room := ⟨room.ID, eraseA room.Users userID⟩
          (.ok (), ⟨setA s.Rooms roomID room'⟩)

/-- GetRoom retrieves a room by its ID; read-only. -/
def GetRoom (s : RTCService) (roomID : String) : Except RTCError Room :=
  match lookupA s.Rooms roomID with
  | none => .error (.roomNotFound roomID)
  | some room => .ok room

/-- One invocation of Conn.WriteMessage performed during a broadcast:
which user it addressed, the handle written to, the frame type and
bytes passed, and whether the write succeeded. -/
structure WriteCall where
  userID : String
  connID : Nat
  messageType : Nat
  data : List Nat
  ok : Bool
deriving DecidableEq

/-- The body of the broadcast loop of SignalMessage for one map entry:
skip the sender, skip a nil handle, otherwise call WriteMessage with
the text frame type and the payload, recording a SendError when the
write fails. -/
def deliverTo (roomID senderID : String) (message : List Nat)
    (e : String × User) : List WriteCall × List SendError :=
  if e.1 = senderID then ([], [])
  else
    match e.2.Conn with
    | none => ([], [])
    | some c =>
        if c.failSend then
          ([⟨e.1, c.id, TextMessage, message, false⟩], [⟨e.1, roomID⟩])
        else
          ([⟨e.1, c.id, TextMessage, message, true⟩], [])

/-- The broadcast loop of SignalMessage over the room's user entries,
in iteration order, collecting the write calls and the recorded send
errors. -/
def sendLoop (roomID senderID : String) (message : List Nat) :
    List (String × User) → List WriteCall × List SendError
  | [] => ([], [])
  | e :: rest =>
      let r1 := deliverTo roomID senderID message e
      let r2 := sendLoop roomID senderID message rest
      (r1.1 ++ r2.1, r1.2 ++ r2.2)

/-- SignalMessage sends a message to users in a room excluding the
sender: resolve the room, run the broadcast loop, and return an
aggregate error exactly when at least one send error was recorded. The
first component is the (unchanged) registry state; the second is the
trace of WriteMessage calls. -/
def SignalMessage (s : RTCService) (roomID senderID : String)
    (message : List Nat) :
    RTCService × List WriteCall × Except RTCError Unit :=
  match lookupA s.Rooms roomID with
  | none => (s, [], .error (.roomNotFound roomID))
  | some room =>
      let r := sendLoop roomID senderID message room.Users
      if r.2.length > 0 then (s, r.1, .error (.broadcastErrors r.2))
      else (s, r.1, .ok ())

/-- One iteration of the websocket handler's read loop (defaultHandler
in ws_routes_test.go): a frame of type mt with payload msg read from
the connection of userID is forwarded to SignalMessage; mt is logged
but not passed on. -/
def handleFrame (s : RTCService) (roomID userID : String) (mt : Nat)
    (msg : List Nat) : RTCService × List WriteCall × Except RTCError Unit :=
  SignalMessage s roomID userID msg

/-- The REST join path (JoinRoomHandler in rtc_routes.go) passes nil as
the websocket connection. -/
def JoinRoomViaRest (s : RTCService) (roomID userID : String) :
    Except RTCError Room × RTCService :=
  JoinRoom s roomID userID none

/-- The calls a client can make against the registry. -/
inductive Op where
  | create (roomID : String)
  | join (roomID userID : String) (conn : Option Conn)
  | leave (roomID userID : String)
  | get (roomID : String)
  | signal (roomID senderID : String) (message : List Nat)
deriving DecidableEq

/-- The registry state after one call. -/
def step (s : RTCService) : Op → RTCService
  | .create r => (CreateRoom s r).2
  | .join r u c => (JoinRoom s r u c).2
  | .leave r u => (LeaveRoom s r u).2
  | .get _ => s
  | .signal r u m => (SignalMessage s r u m).1

/-- The registry state reached by a call sequence from a fresh
service. -/
def run (ops : List Op) : RTCService :=
  ops.foldl step NewRTCService

/-- Whether userID is currently a member of roomID. -/
def isMember (s : RTCService) (roomID userID : String) : Bool :=
  match lookupA s.Rooms roomID with
  | none => false
  | some room => (lookupA room.Users userID).isSome

/-- Key consistency: every room stored under key r has ID r, and every
user stored under key p has ID p. -/
def WF (s : RTCService) : Prop :=
  ∀ p ∈ s.Rooms, p.2.ID = p.1 ∧ ∀ q ∈ p.2.Users, q.2.ID = q.1

/-! Concrete inputs used to instantiate the general theorems. -/

/-- A concrete room ID. -/
def ridW : String := "r"

/-- A concrete user ID. -/
def uidA : String := "a"

/-- A concrete user ID. -/
def uidB : String := "b"

/-- A concrete user ID. -/
def uidC : String := "c"

/-- A healthy connection handle. -/
def connA : Conn := ⟨1, false⟩

/-- A connection handle whose writes fail. -/
def connB : Conn := ⟨2, true⟩

/-- A healthy connection handle. -/
def connC : Conn := ⟨3, false⟩

/-- User a with a healthy handle. -/
def userA : User := ⟨uidA, some connA⟩

/-- User b with a failing handle. -/
def userB : User := ⟨uidB, some connB⟩

/-- User c with a healthy handle. -/
def userC : User := ⟨uidC, some connC⟩

/-- User b as joined via REST: nil handle. -/
def userNilB : User := ⟨uidB, none⟩

/-- A room with users a, b, c. -/
def roomW : Room := ⟨ridW, [(uidA, userA), (uidB, userB), (uidC, userC)]⟩

/-- A registry holding roomW. -/
def sW : RTCService := ⟨[(ridW, roomW)]⟩

/-- A room whose only user is a. -/
def roomSolo : Room := ⟨ridW, [(uidA, userA)]⟩

/-- A registry holding roomSolo. -/
def sSolo : RTCService := ⟨[(ridW, roomSolo)]⟩

/-- An empty registered room. -/
def roomEmptyW : Room := ⟨ridW, []⟩

/-- A registry holding the empty room. -/
def sEmptyW : RTCService := ⟨[(ridW, roomEmptyW)]⟩

/-- A room in which the only non-sender user has a nil handle. -/
def roomNilW : Room := ⟨ridW, [(uidA, userA), (uidB, userNilB)]⟩

/-- A registry holding roomNilW. -/
def sNilW : RTCService := ⟨[(ridW, roomNilW)]⟩

/-! Helper lemmas on the association-list operations. -/

theorem lookupA_setA_self {α : Type} (l : List (String × α)) (k : String)
    (v : α) : lookupA (setA l k v) k = some v := by
  induction l with
  | nil => simp [setA, lookupA]
  | cons hd tl ih =>
      obtain ⟨k', v'⟩ := hd
      by_cases h : k' = k <;> simp [setA, lookupA, h, ih]

theorem lookupA_setA_ne {α : Type} {l : List (String × α)} {k k' : String}
    {v : α} (h : k' ≠ k) : lookupA (setA l k v) k' = lookupA l k' := by
  induction l with
  | nil => simp [setA, lookupA, Ne.symm h]
  | cons hd tl ih =>
      obtain ⟨k'', v''⟩ := hd
      by_cases h2 : k'' = k
      · subst h2
        simp [setA, lookupA, Ne.symm h]
      · simp [setA, lookupA, h2]
        by_cases h3 : k'' = k' <;> simp [h3, ih]

theorem lookupA_eraseA_ne {α : Type} {l : List (String × α)} {k k' : String}
    (h : k' ≠ k) : lookupA (eraseA l k) k' = lookupA l k' := by
  induction l with
  | nil => simp [eraseA]
  | cons hd tl ih =>
      obtain ⟨k'', v''⟩ := hd
      by_cases h2 : k'' = k
      · subst h2
        simp [eraseA, lookupA, Ne.symm h]
      · simp [eraseA, lookupA, h2]
        by_cases h3 : k'' = k' <;> simp [h3, ih]

theorem eraseA_setA_of_absent {α : Type} {l : List (String × α)}
    {k : String} {v : α} (h : lookupA l k = none) :
    eraseA (setA l k v) k = l := by
  induction l with
  | nil => simp [setA, eraseA]
  | cons hd tl ih =>
      obtain ⟨k', v'⟩ := hd
      by_cases h2 : k' = k
      · simp [lookupA, h2] at h
      · simp [lookupA, h2] at h
        simp [setA, eraseA, h2, ih h]

theorem lookupA_mem {α : Type} {l : List (String × α)} {k : String}
    {v : α} (h : lookupA l k = some v) : (k, v) ∈ l := by
  induction l with
  | nil => simp [lookupA] at h
  | cons hd tl ih =>
      obtain ⟨k', v'⟩ := hd
      by_cases h2 : k' = k
      · subst h2
        simp [lookupA] at h
        simp [h]
      · simp [lookupA, h2] at h
        exact List.mem_cons_of_mem _ (ih h)

theorem mem_setA {α : Type} {l : List (String × α)} {k : String} {v : α}
    {q : String × α} (h : q ∈ setA l k v) : q = (k, v) ∨ q ∈ l := by
  induction l with
  | nil => simpa [setA] using h
  | cons hd tl ih =>
      obtain ⟨k', v'⟩ := hd
      by_cases h2 : k' = k
      · simp [setA, h2] at h
        rcases h with h | h
        · exact Or.inl h
        · exact Or.inr (List.mem_cons_of_mem _ h)
      · simp [setA, h2] at h
        rcases h with h | h
        · exact Or.inr (by simp [h])
        · rcases ih h with h3 | h3
          · exact Or.inl h3
          · exact Or.inr (List.mem_cons_of_mem _ h3)

theorem mem_eraseA {α : Type} {l : List (String × α)} {k : String}
    {q : String × α} (h : q ∈ eraseA l k) : q ∈ l := by
  induction l with
  | nil => simp [eraseA] at h
  | cons hd tl ih =>
      obtain ⟨k', v'⟩ := hd
      by_cases h2 : k' = k
      · simp [eraseA, h2] at h
        exact List.mem_cons_of_mem _ h
      · simp [eraseA, h2] at h
        rcases h with h | h
        · simp [h]
        · exact List.mem_cons_of_mem _ (ih h)

theorem nodupKeys_value_unique {α : Type} {l : List (String × α)}
    (hn : NodupKeys l) {k : String} {a b : α} (ha : (k, a) ∈ l)
    (hb : (k, b) ∈ l) : a = b := by
  induction l with
  | nil => simp at ha
  | cons hd tl ih =>
      obtain ⟨k', v'⟩ := hd
      simp [NodupKeys] at hn
      rcases List.mem_cons.1 ha with ha' | ha' <;>
        rcases List.mem_cons.1 hb with hb' | hb'
      · simp only [Prod.mk.injEq] at ha' hb'
        exact ha'.2.trans hb'.2.symm
      · simp only [Prod.mk.injEq] at ha'
        exact absurd (ha'.1 ▸ hb') (hn.1 b)
      · simp only [Prod.mk.injEq] at hb'
        exact absurd (hb'.1 ▸ ha') (hn.1 a)
      · exact ih hn.2 ha' hb'

/-! Helper lemmas on the broadcast loop. -/

theorem mem_deliverTo_fst {roomID senderID : String} {m : List Nat}
    {uid : String} {u : User} {d : WriteCall} :
    d ∈ (deliverTo roomID senderID m (uid, u)).1 ↔
      uid ≠ senderID ∧ ∃ c, u.Conn = some c ∧
        d = ⟨uid, c.id, TextMessage, m, !c.failSend⟩ := by
  unfold deliverTo
  by_cases h : uid = senderID
  · simp [h]
  · simp only [h, if_false]
    cases hc : u.Conn with
    | none => simp [h, hc]
    | some c =>
        by_cases hf : c.failSend <;> simp [h, hc, hf]

theorem mem_deliverTo_snd {roomID senderID : String} {m : List Nat}
    {uid : String} {u : User} {e : SendError} :
    e ∈ (deliverTo roomID senderID m (uid, u)).2 ↔
      uid ≠ senderID ∧ ∃ c, u.Conn = some c ∧ c.failSend = true ∧
        e = ⟨uid, roomID⟩ := by
  unfold deliverTo
  by_cases h : uid = senderID
  · simp [h]
  · simp only [h, if_false]
    cases hc : u.Conn with
    | none => simp [h, hc]
    | some c =>
        by_cases hf : c.failSend <;> simp [h, hc, hf]

theorem mem_sendLoop_fst {roomID senderID : String} {m : List Nat}
    {users : List (String × User)} {d : WriteCall} :
    d ∈ (sendLoop roomID senderID m users).1 ↔
      ∃ e ∈ users, d ∈ (deliverTo roomID senderID m e).1 := by
  induction users with
  | nil => simp [sendLoop]
  | cons hd tl ih => simp [sendLoop, List.mem_append, ih]

theorem mem_sendLoop_snd {roomID senderID : String} {m : List Nat}
    {users : List (String × User)} {e : SendError} :
    e ∈ (sendLoop roomID senderID m users).2 ↔
      ∃ q ∈ users, e ∈ (deliverTo roomID senderID m q).2 := by
  induction users with
  | nil => simp [sendLoop]
  | cons hd tl ih => simp [sendLoop, List.mem_append, ih]

theorem sendLoop_empty_of_allNone {roomID senderID : String} {m : List Nat}
    {users : List (String × User)}
    (h : ∀ q ∈ users, q.1 ≠ senderID → q.2.Conn = none) :
    sendLoop roomID senderID m users = ([], []) := by
  induction users with
  | nil => simp [sendLoop]
  | cons hd tl ih =>
      obtain ⟨uid, u⟩ := hd
      have htl := ih fun q hq => h q (List.mem_cons_of_mem _ hq)
      have hhd : deliverTo roomID senderID m (uid, u) = ([], []) := by
        unfold deliverTo
        by_cases hs : uid = senderID
        · simp [hs]
        · have hcn : u.Conn = none := h (uid, u) (List.mem_cons_self _ _) hs
          simp [hs, hcn]
      simp [sendLoop, htl, hhd]

theorem SignalMessage_fst (s : RTCService) (roomID senderID : String)
    (m : List Nat) : (SignalMessage s roomID senderID m).1 = s := by
  unfold SignalMessage
  cases lookupA s.Rooms roomID with
  | none => rfl
  | some room =>
      simp only []
      split <;> rfl

theorem SignalMessage_calls {s : RTCService} {roomID senderID : String}
    {m : List Nat} {room : Room} (hr : lookupA s.Rooms roomID = some room) :
    (SignalMessage s roomID senderID m).2.1
      = (sendLoop roomID senderID m room.Users).1 := by
  simp only [SignalMessage, hr]
  split <;> rfl

theorem SignalMessage_ok {s : RTCService} {roomID senderID : String}
    {m : List Nat} {room : Room} (hr : lookupA s.Rooms roomID = some room)
    (he : (sendLoop roomID senderID m room.Users).2 = []) :
    (SignalMessage s roomID senderID m).2.2 = .ok () := by
  simp [SignalMessage, hr, he]

theorem SignalMessage_error {s : RTCService} {roomID senderID : String}
    {m : List Nat} {room : Room} (hr : lookupA s.Rooms roomID = some room)
    (he : (sendLoop roomID senderID m room.Users).2 ≠ []) :
    (SignalMessage s roomID senderID m).2.2
      = .error (.broadcastErrors (sendLoop roomID senderID m room.Users).2) := by
  have hlen : (sendLoop roomID senderID m room.Users).2.length > 0 :=
    List.length_pos.mpr he
  simp [SignalMessage, hr, hlen]

/-! The claim theorems. -/

/-- C8: SignalMessage never mutates registry state: the registry
component of its result is the input registry, whatever the room, the
sender, the payload, and whether or not deliveries fail; hence the room
table, every participant set and every stored handle are unchanged. -/
theorem rtc_c8 (s : RTCService) (roomID senderID : String) (m : List Nat) :
    (SignalMessage s roomID senderID m).1 = s :=
  SignalMessage_fst s roomID senderID m

/-- C5: a successful CreateRoom yields a room with zero participants,
and CreateRoom twice on the same ID yields the already-exists error on
the second call, which leaves the whole registry (hence the existing
room's participant set) unchanged. -/
theorem rtc_c5 (s : RTCService) (roomID : String) :
    (∀ room, (CreateRoom s roomID).1 = .ok room → room.Users = []) ∧
    (CreateRoom (CreateRoom s roomID).2 roomID).1
      = .error (.roomAlreadyExists roomID) ∧
    (CreateRoom (CreateRoom s roomID).2 roomID).2 = (CreateRoom s roomID).2 := by
  cases h : lookupA s.Rooms roomID with
  | some r0 =>
      refine ⟨?_, ?_, ?_⟩
      · intro room heq
        simp [CreateRoom, h] at heq
      · simp [CreateRoom, h]
      · simp [CreateRoom, h]
  | none =>
      refine ⟨?_, ?_, ?_⟩
      · intro room heq
        simp [CreateRoom, h] at heq
        rw [← heq]
      · simp [CreateRoom, h, lookupA_setA_self]
      · simp [CreateRoom, h, lookupA_setA_self]

/-- C4: removing the last remaining participant of a room leaves the
room registered: GetRoom still succeeds on the now-empty room and
CreateRoom on the same ID still fails with the already-exists error,
leaving the registry unchanged. -/
theorem rtc_c4 (s : RTCService) (roomID userID : String) (u : User)
    (room : Room) (hr : lookupA s.Rooms roomID = some room)
    (hu : room.Users = [(userID, u)]) :
    (LeaveRoom s roomID userID).1 = .ok () ∧
    GetRoom (LeaveRoom s roomID userID).2 roomID = .ok ⟨room.ID, []⟩ ∧
    (CreateRoom (LeaveRoom s roomID userID).2 roomID).1
      = .error (.roomAlreadyExists roomID) ∧
    (CreateRoom (LeaveRoom s roomID userID).2 roomID).2
      = (LeaveRoom s roomID userID).2 := by
  have hl : lookupA room.Users userID = some u := by
    simp [hu, lookupA]
  have he : eraseA room.Users userID = [] := by
    simp [hu, eraseA]
  have hlv : LeaveRoom s roomID userID
      = (.ok (), ⟨setA s.Rooms roomID ⟨room.ID, []⟩⟩) := by
    simp [LeaveRoom, hr, hl, he]
  refine ⟨?_, ?_, ?_, ?_⟩
  · rw [hlv]
  · rw [hlv]
    simp [GetRoom, lookupA_setA_self]
  · rw [hlv]
    simp [CreateRoom, lookupA_setA_self]
  · rw [hlv]
    simp [CreateRoom, lookupA_setA_self]

/-- C6: JoinRoom on an unregistered room yields the not-found error and
leaves the registry unchanged (no implicit creation); after CreateRoom
on that ID the same JoinRoom succeeds and GetRoom reports the new user
as a member carrying the given send handle. -/
theorem rtc_c6 (s : RTCService) (roomID userID : String) (h : Option Conn)
    (hnone : lookupA s.Rooms roomID = none) :
    JoinRoom s roomID userID h = (.error (.roomNotFound roomID), s) ∧
    (∃ room, (JoinRoom (CreateRoom s roomID).2 roomID userID h).1 = .ok room ∧
      GetRoom (JoinRoom (CreateRoom s roomID).2 roomID userID h).2 roomID
        = .ok room ∧
      lookupA room.Users userID = some ⟨userID, h⟩) := by
  constructor
  · simp [JoinRoom, hnone]
  · have hcr : (CreateRoom s roomID).2 = ⟨setA s.Rooms roomID ⟨roomID, []⟩⟩ := by
      simp [CreateRoom, hnone]
    refine ⟨⟨roomID, [(userID, ⟨userID, h⟩)]⟩, ?_, ?_, ?_⟩
    · rw [hcr]
      simp [JoinRoom, lookupA_setA_self, lookupA, setA]
    · rw [hcr]
      simp [JoinRoom, lookupA_setA_self, lookupA, setA, GetRoom]
    · simp [lookupA]

/-- C1: SignalMessage on an unregistered room yields only the not-found
error with no write; on a registered room it invokes the handle of
every participant other than the sender that has one, with exactly the
payload bytes, never writes to an entry keyed by the sender, and never
reports not-found whatever the sender: only room existence is
validated, sender membership is not. -/
theorem rtc_c1 (s : RTCService) (roomID senderID : String) (m : List Nat) :
    (lookupA s.Rooms roomID = none →
      SignalMessage s roomID senderID m
        = (s, [], .error (.roomNotFound roomID))) ∧
    (∀ room, lookupA s.Rooms roomID = some room →
      (∀ uid u c, (uid, u) ∈ room.Users → uid ≠ senderID → u.Conn = some c →
        (⟨uid, c.id, TextMessage, m, !c.failSend⟩ : WriteCall)
          ∈ (SignalMessage s roomID senderID m).2.1) ∧
      (∀ d ∈ (SignalMessage s roomID senderID m).2.1,
        d.userID ≠ senderID ∧ d.data = m) ∧
      ((SignalMessage s roomID senderID m).2.2 = .ok () ∨
        ∃ errs, errs ≠ [] ∧
          (SignalMessage s roomID senderID m).2.2
            = .error (.broadcastErrors errs))) := by
  constructor
  · intro hnone
    simp [SignalMessage, hnone]
  · intro room hr
    refine ⟨?_, ?_, ?_⟩
    · intro uid u c hmem hne hc
      rw [SignalMessage_calls hr]
      exact mem_sendLoop_fst.2
        ⟨(uid, u), hmem, mem_deliverTo_fst.2 ⟨hne, c, hc, rfl⟩⟩
    · intro d hd
      rw [SignalMessage_calls hr] at hd
      rcases mem_sendLoop_fst.1 hd with ⟨q, hq, hdel⟩
      obtain ⟨uid', u'⟩ := q
      rcases mem_deliverTo_fst.1 hdel with ⟨hne, c, hc, hdeq⟩
      subst hdeq
      exact ⟨hne, rfl⟩
    · by_cases he : (sendLoop roomID senderID m room.Users).2 = []
      · exact Or.inl (SignalMessage_ok hr he)
      · exact Or.inr ⟨_, he, SignalMessage_error hr he⟩

/-- C2: during a broadcast in a registered room, a write is attempted
for every non-sender participant with a handle regardless of other
failures; the recorded failures are exactly the non-sender entries
whose handle fails; the call returns success when no failure was
recorded (in particular in a sole-member room whose only entry is the
sender, where no write happens) and otherwise one aggregate error
carrying all recorded failures. -/
theorem rtc_c2 (s : RTCService) (roomID senderID : String) (m : List Nat)
    (room : Room) (hr : lookupA s.Rooms roomID = some room) :
    (∀ uid u c, (uid, u) ∈ room.Users → uid ≠ senderID → u.Conn = some c →
      ∃ d ∈ (SignalMessage s roomID senderID m).2.1,
        d.userID = uid ∧ d.connID = c.id ∧ d.data = m) ∧
    ((sendLoop roomID senderID m room.Users).2 = [] →
      (SignalMessage s roomID senderID m).2.2 = .ok ()) ∧
    ((sendLoop roomID senderID m room.Users).2 ≠ [] →
      (SignalMessage s roomID senderID m).2.2
        = .error (.broadcastErrors (sendLoop roomID senderID m room.Users).2)) ∧
    (∀ e, e ∈ (sendLoop roomID senderID m room.Users).2 ↔
      ∃ uid u c, (uid, u) ∈ room.Users ∧ uid ≠ senderID ∧ u.Conn = some c ∧
        c.failSend = true ∧ e = ⟨uid, roomID⟩) ∧
    (∀ u, room.Users = [(senderID, u)] →
      SignalMessage s roomID senderID m = (s, [], .ok ())) := by
  refine ⟨?_, ?_, ?_, ?_, ?_⟩
  · intro uid u c hmem hne hc
    refine ⟨⟨uid, c.id, TextMessage, m, !c.failSend⟩, ?_, rfl, rfl, rfl⟩
    rw [SignalMessage_calls hr]
    exact mem_sendLoop_fst.2
      ⟨(uid, u), hmem, mem_deliverTo_fst.2 ⟨hne, c, hc, rfl⟩⟩
  · exact SignalMessage_ok hr
  · exact SignalMessage_error hr
  · intro e
    constructor
    · intro he
      rcases mem_sendLoop_snd.1 he with ⟨q, hq, hdel⟩
      obtain ⟨uid', u'⟩ := q
      rcases mem_deliverTo_snd.1 hdel with ⟨hne, c, hc, hf, heq⟩
      exact ⟨uid', u', c, hq, hne, hc, hf, heq⟩
    · intro hex
      rcases hex with ⟨uid, u, c, hmem, hne, hc, hf, heq⟩
      subst heq
      exact mem_sendLoop_snd.2
        ⟨(uid, u), hmem, mem_deliverTo_snd.2 ⟨hne, c, hc, hf, rfl⟩⟩
  · intro u hu
    have hsl : sendLoop roomID senderID m room.Users = ([], []) := by
      simp [hu, sendLoop, deliverTo]
    simp [SignalMessage, hr, hsl]

/-- C3 counterexample: in room roomW, user a relays a frame of binary
type carrying byte 7; both write calls performed go out with the text
frame type, which differs from the binary type the sender used, so the
framing type is not preserved. -/
theorem rtc_c3_counterexample :
    (handleFrame sW ridW uidA BinaryMessage [7]).2.1.map
        WriteCall.messageType = [TextMessage, TextMessage] ∧
    TextMessage ≠ BinaryMessage := by
  decide

/-- C3 (amended): every write performed while relaying an inbound frame
carries the unmodified payload bytes, but always with the text frame
type, regardless of the framing type of the inbound frame, which the
handler discards. -/
theorem rtc_c3 (s : RTCService) (roomID userID : String) (mt : Nat)
    (msg : List Nat) :
    ∀ d ∈ (handleFrame s roomID userID mt msg).2.1,
      d.data = msg ∧ d.messageType = TextMessage := by
  intro d hd
  unfold handleFrame at hd
  cases hr : lookupA s.Rooms roomID with
  | none => simp [SignalMessage, hr] at hd
  | some room =>
      rw [SignalMessage_calls hr] at hd
      rcases mem_sendLoop_fst.1 hd with ⟨q, hq, hdel⟩
      obtain ⟨uid', u'⟩ := q
      rcases mem_deliverTo_fst.1 hdel with ⟨hne, c, hc, hdeq⟩
      subst hdeq
      exact ⟨rfl, rfl⟩

/-- C9: a non-sender participant whose stored handle is nil, as the
REST join path stores it, is skipped by a broadcast: no write call is
made for it and no failure is recorded for it; when every non-sender
has a nil handle the broadcast returns success with no write at all;
and a successful REST join indeed stores a nil handle. -/
theorem rtc_c9 (s : RTCService) (roomID senderID : String) (m : List Nat)
    (room : Room) (hr : lookupA s.Rooms roomID = some room)
    (hn : NodupKeys room.Users) :
    (∀ uid u, (uid, u) ∈ room.Users → u.Conn = none →
      (∀ d ∈ (SignalMessage s roomID senderID m).2.1, d.userID ≠ uid) ∧
      (∀ e ∈ (sendLoop roomID senderID m room.Users).2, e.userID ≠ uid)) ∧
    ((∀ q ∈ room.Users, q.1 ≠ senderID → q.2.Conn = none) →
      SignalMessage s roomID senderID m = (s, [], .ok ())) ∧
    (∀ (s2 : RTCService) (r2 p2 : String) (room2 : Room),
      (JoinRoomViaRest s2 r2 p2).1 = .ok room2 →
        lookupA room2.Users p2 = some ⟨p2, none⟩) := by
  refine ⟨?_, ?_, ?_⟩
  · intro uid u hmem hcn
    constructor
    · intro d hd
      rw [SignalMessage_calls hr] at hd
      rcases mem_sendLoop_fst.1 hd with ⟨q, hq, hdel⟩
      obtain ⟨uid', u'⟩ := q
      rcases mem_deliverTo_fst.1 hdel with ⟨hne, c, hc, hdeq⟩
      subst hdeq
      intro hdid
      have hdid2 : uid' = uid := hdid
      subst hdid2
      have hequ : u' = u := nodupKeys_value_unique hn hq hmem
      rw [hequ, hcn] at hc
      exact Option.noConfusion hc
    · intro e he
      rcases mem_sendLoop_snd.1 he with ⟨q, hq, hdel⟩
      obtain ⟨uid', u'⟩ := q
      rcases mem_deliverTo_snd.1 hdel with ⟨hne, c, hc, hf, heq⟩
      subst heq
      intro hdid
      have hdid2 : uid' = uid := hdid
      subst hdid2
      have hequ : u' = u := nodupKeys_value_unique hn hq hmem
      rw [hequ, hcn] at hc
      exact Option.noConfusion hc
  · intro hall
    have hsl : sendLoop roomID senderID m room.Users = ([], []) :=
      sendLoop_empty_of_allNone hall
    simp [SignalMessage, hr, hsl]
  · intro s2 r2 p2 room2 hok
    cases h1 : lookupA s2.Rooms r2 with
    | none => simp [JoinRoomViaRest, JoinRoom, h1] at hok
    | some room0 =>
        cases h2 : lookupA room0.Users p2 with
        | some _ => simp [JoinRoomViaRest, JoinRoom, h1, h2] at hok
        | none =>
            simp [JoinRoomViaRest, JoinRoom, h1, h2] at hok
            rw [← hok]
            simp [lookupA_setA_self]

/-- C7: participant state machine. With room registered and the user
absent, Join succeeds and yields the room extended by the user; an
immediate second Join is rejected as already-in-room, leaving the state
unchanged; Leave then succeeds and an immediate second Leave is
rejected as not-in-room, leaving the state unchanged. Moreover, fully
generally, a membership bit changes over one call only through a join
of exactly that user to that room flipping it from absent to joined or
a leave of exactly that user from that room flipping it from joined to
absent. -/
theorem rtc_c7 (s : RTCService) (roomID userID : String)
    (conn conn2 : Option Conn) (room : Room)
    (hr : lookupA s.Rooms roomID = some room)
    (hp : lookupA room.Users userID = none) :
    (JoinRoom s roomID userID conn).1
      = .ok ⟨room.ID, setA room.Users userID ⟨userID, conn⟩⟩ ∧
    JoinRoom (JoinRoom s roomID userID conn).2 roomID userID conn2
      = (.error (.userAlreadyInRoom userID roomID),
         (JoinRoom s roomID userID conn).2) ∧
    (LeaveRoom (JoinRoom s roomID userID conn).2 roomID userID).1 = .ok () ∧
    LeaveRoom (LeaveRoom (JoinRoom s roomID userID conn).2 roomID userID).2
        roomID userID
      = (.error (.userNotInRoom userID roomID),
         (LeaveRoom (JoinRoom s roomID userID conn).2 roomID userID).2) ∧
    (∀ (t : RTCService) (r p : String) (op : Op),
      isMember (step t op) r p ≠ isMember t r p →
        (∃ c, op = Op.join r p c ∧ isMember t r p = false ∧
          isMember (step t op) r p = true) ∨
        (op = Op.leave r p ∧ isMember t r p = true ∧
          isMember (step t op) r p = false)) := by
  have hjoin : JoinRoom s roomID userID conn
      = (.ok ⟨room.ID, setA room.Users userID ⟨userID, conn⟩⟩,
         ⟨setA s.Rooms roomID
            ⟨room.ID, setA room.Users userID ⟨userID, conn⟩⟩⟩) := by
    simp [JoinRoom, hr, hp]
  have hleave1 : LeaveRoom (JoinRoom s roomID userID conn).2 roomID userID
      = (.ok (),
         ⟨setA (setA s.Rooms roomID
             ⟨room.ID, setA room.Users userID ⟨userID, conn⟩⟩) roomID
           ⟨room.ID, room.Users⟩⟩) := by
    rw [hjoin]
    simp [LeaveRoom, lookupA_setA_self, eraseA_setA_of_absent hp]
  refine ⟨?_, ?_, ?_, ?_, ?_⟩
  · rw [hjoin]
  · rw [hjoin]
    simp [JoinRoom, lookupA_setA_self]
  · rw [hleave1]
  · rw [hleave1]
    simp [LeaveRoom, lookupA_setA_self, hp]
  · intro t r p op hch
    cases op with
    | get rid =>
        exact absurd rfl hch
    | signal rid sid mm =>
        exfalso
        apply hch
        simp [step, SignalMessage_fst]
    | create rid =>
        exfalso
        apply hch
        cases hcr : lookupA t.Rooms rid with
        | some r0 => simp [step, CreateRoom, hcr]
        | none =>
            by_cases hrr : rid = r
            · subst hrr
              simp [step, CreateRoom, hcr, isMember, lookupA_setA_self,
                    lookupA]
            · simp [step, CreateRoom, hcr, isMember,
                    lookupA_setA_ne (Ne.symm hrr)]
    | join rid uid cc =>
        cases hcr : lookupA t.Rooms rid with
        | none =>
            exfalso
            apply hch
            simp [step, JoinRoom, hcr]
        | some room0 =>
            cases hcu : lookupA room0.Users uid with
            | some _ =>
                exfalso
                apply hch
                simp [step, JoinRoom, hcr, hcu]
            | none =>
                by_cases hrr : rid = r
                · subst hrr
                  by_cases hup : uid = p
                  · subst hup
                    refine Or.inl ⟨cc, rfl, ?_, ?_⟩
                    · simp [isMember, hcr, hcu]
                    · simp [step, JoinRoom, hcr, hcu, isMember,
                            lookupA_setA_self]
                  · exfalso
                    apply hch
                    simp [step, JoinRoom, hcr, hcu, isMember,
                          lookupA_setA_self, lookupA_setA_ne (Ne.symm hup)]
                · exfalso
                  apply hch
                  simp [step, JoinRoom, hcr, hcu, isMember,
                        lookupA_setA_ne (Ne.symm hrr)]
    | leave rid uid =>
        cases hcr : lookupA t.Rooms rid with
        | none =>
            exfalso
            apply hch
            simp [step, LeaveRoom, hcr]
        | some room0 =>
            cases hcu : lookupA room0.Users uid with
            | none =>
                exfalso
                apply hch
                simp [step, LeaveRoom, hcr, hcu]
            | some u0 =>
                by_cases hrr : rid = r
                · subst hrr
                  by_cases hup : uid = p
                  · subst hup
                    have hbefore : isMember t rid uid = true := by
                      simp [isMember, hcr, hcu]
                    have hafter : isMember (step t (Op.leave rid uid)) rid uid
                        = false := by
                      cases h2 : isMember (step t (Op.leave rid uid)) rid uid
                      · rfl
                      · exact absurd (h2.trans hbefore.symm) hch
                    exact Or.inr ⟨rfl, hbefore, hafter⟩
                  · exfalso
                    apply hch
                    simp [step, LeaveRoom, hcr, hcu, isMember,
                          lookupA_setA_self, lookupA_eraseA_ne (Ne.symm hup)]
                · exfalso
                  apply hch
                  simp [step, LeaveRoom, hcr, hcu, isMember,
                        lookupA_setA_ne (Ne.symm hrr)]

theorem WF_step {s : RTCService} (op : Op) (h : WF s) : WF (step s op) := by
  cases op with
  | get rid => exact h
  | signal rid sid mm =>
      have hst : step s (Op.signal rid sid mm) = s := SignalMessage_fst s rid sid mm
      rw [hst]
      exact h
  | create rid =>
      cases hcr : lookupA s.Rooms rid with
      | some r0 => simpa [step, CreateRoom, hcr] using h
      | none =>
          intro q hq
          simp only [step, CreateRoom, hcr] at hq
          rcases mem_setA hq with h1 | h1
          · subst h1
            exact ⟨rfl, by intro q' hq'; simp at hq'⟩
          · exact h q h1
  | join rid uid cc =>
      cases hcr : lookupA s.Rooms rid with
      | none => simpa [step, JoinRoom, hcr] using h
      | some room0 =>
          cases hcu : lookupA room0.Users uid with
          | some _ => simpa [step, JoinRoom, hcr, hcu] using h
          | none =>
              have hre := h _ (lookupA_mem hcr)
              intro q hq
              simp only [step, JoinRoom, hcr, hcu] at hq
              rcases mem_setA hq with h1 | h1
              · subst h1
                refine ⟨hre.1, ?_⟩
                intro q' hq'
                rcases mem_setA hq' with h2 | h2
                · subst h2
                  rfl
                · exact hre.2 q' h2
              · exact h q h1
  | leave rid uid =>
      cases hcr : lookupA s.Rooms rid with
      | none => simpa [step, LeaveRoom, hcr] using h
      | some room0 =>
          cases hcu : lookupA room0.Users uid with
          | none => simpa [step, LeaveRoom, hcr, hcu] using h
          | some u0 =>
              have hre := h _ (lookupA_mem hcr)
              intro q hq
              simp only [step, LeaveRoom, hcr, hcu] at hq
              rcases mem_setA hq with h1 | h1
              · subst h1
                refine ⟨hre.1, ?_⟩
                intro q' hq'
                exact hre.2 q' (mem_eraseA hq')
              · exact h q h1

theorem WF_foldl (l : List Op) :
    ∀ s : RTCService, WF s → WF (l.foldl step s) := by
  induction l with
  | nil => intro s hs; exact hs
  | cons hd tl ih => intro s hs; exact ih _ (WF_step hd hs)

theorem WF_new : WF NewRTCService := by
  intro q hq
  simp [NewRTCService] at hq

/-- C10: key consistency. In every registry state reachable by a call
sequence from a fresh service, every room stored under key r has ID r
and every user stored under key p has ID p; and every single operation
preserves this invariant from any state satisfying it. -/
theorem rtc_c10 :
    (∀ ops : List Op, WF (run ops)) ∧
    (∀ (s : RTCService) (op : Op), WF s → WF (step s op)) :=
  ⟨fun ops => WF_foldl ops NewRTCService WF_new,
   fun _ op h => WF_step op h⟩

/-! Witnesses: the general theorems applied at concrete inputs. -/

/-- Witness for C1: in roomW, a broadcast from a performs the write
call to the failing handle of b with the payload bytes. -/
theorem rtc_c1_witness :
    (⟨uidB, connB.id, TextMessage, [7], !connB.failSend⟩ : WriteCall)
      ∈ (SignalMessage sW ridW uidA [7]).2.1 :=
  ((rtc_c1 sW ridW uidA [7]).2 roomW (by decide)).1 uidB userB connB
    (by decide) (by decide) (by decide)

/-- Witness for C2: although the write to b fails, the broadcast from a
in roomW still performs a write to c carrying the payload. -/
theorem rtc_c2_witness :
    ∃ d ∈ (SignalMessage sW ridW uidA [7]).2.1,
      d.userID = uidC ∧ d.connID = connC.id ∧ d.data = [7] :=
  (rtc_c2 sW ridW uidA [7] roomW (by decide)).1 uidC userC connC
    (by decide) (by decide) (by decide)

/-- Witness for C3: the write call to b produced by relaying a binary
frame carries the payload bytes and the text frame type. -/
theorem rtc_c3_witness :
    (⟨uidB, connB.id, TextMessage, [7], false⟩ : WriteCall).data = [7] ∧
    (⟨uidB, connB.id, TextMessage, [7], false⟩ : WriteCall).messageType
      = TextMessage :=
  rtc_c3 sW ridW uidA BinaryMessage [7]
    ⟨uidB, connB.id, TextMessage, [7], false⟩ (by decide)

/-- Witness for C4: after a leaves the sole-member room, the room is
still registered, GetRoom succeeds on the empty room, and CreateRoom
on its ID fails with the already-exists error. -/
theorem rtc_c4_witness :
    (LeaveRoom sSolo ridW uidA).1 = .ok () ∧
    GetRoom (LeaveRoom sSolo ridW uidA).2 ridW = .ok ⟨roomSolo.ID, []⟩ ∧
    (CreateRoom (LeaveRoom sSolo ridW uidA).2 ridW).1
      = .error (.roomAlreadyExists ridW) ∧
    (CreateRoom (LeaveRoom sSolo ridW uidA).2 ridW).2
      = (LeaveRoom sSolo ridW uidA).2 :=
  rtc_c4 sSolo ridW uidA userA roomSolo (by decide) (by decide)

/-- Witness for C5: creating ridW on a fresh registry yields an empty
room, and creating it a second time yields the already-exists error. -/
theorem rtc_c5_witness :
    (⟨ridW, []⟩ : Room).Users = [] ∧
    (CreateRoom (CreateRoom NewRTCService ridW).2 ridW).1
      = .error (.roomAlreadyExists ridW) :=
  ⟨(rtc_c5 NewRTCService ridW).1 ⟨ridW, []⟩ rfl,
   (rtc_c5 NewRTCService ridW).2.1⟩

/-- Witness for C6: joining an unregistered room fails with not-found
and leaves the fresh registry unchanged; after creating the room the
same join succeeds and GetRoom reports the member with its handle. -/
theorem rtc_c6_witness :
    JoinRoom NewRTCService ridW uidA (some connA)
      = (.error (.roomNotFound ridW), NewRTCService) ∧
    (∃ room, (JoinRoom (CreateRoom NewRTCService ridW).2 ridW uidA
        (some connA)).1 = .ok room ∧
      GetRoom (JoinRoom (CreateRoom NewRTCService ridW).2 ridW uidA
        (some connA)).2 ridW = .ok room ∧
      lookupA room.Users uidA = some ⟨uidA, some connA⟩) :=
  rtc_c6 NewRTCService ridW uidA (some connA) (by decide)

/-- Witness for C7: after a joins the empty room, a second join of a is
rejected as already-in-room and leaves the state unchanged. -/
theorem rtc_c7_witness :
    JoinRoom (JoinRoom sEmptyW ridW uidA (some connA)).2 ridW uidA
        (some connC)
      = (.error (.userAlreadyInRoom uidA ridW),
         (JoinRoom sEmptyW ridW uidA (some connA)).2) :=
  (rtc_c7 sEmptyW ridW uidA (some connA) (some connC) roomEmptyW
      (by decide) (by decide)).2.1

/-- Witness for C9: in roomNilW, where the only non-sender b carries a
nil handle, the broadcast from a succeeds with no write at all. -/
theorem rtc_c9_witness :
    SignalMessage sNilW ridW uidA [7] = (sNilW, [], .ok ()) :=
  (rtc_c9 sNilW ridW uidA [7] roomNilW (by decide)
      (by unfold NodupKeys; decide)).2.1 (by decide)

/-- Witness for C10: one creation step from the fresh registry
preserves key consistency. -/
theorem rtc_c10_witness : WF (step NewRTCService (Op.create ridW)) :=
  rtc_c10.2 NewRTCService (Op.create ridW) WF_new

end RTC
